import Mathlib

/-!
Verification of the MARS voice-assistant core against its design
specification.  The Python core (conversation memory, skill registry,
AI tool-dispatch loop, speaker verification, wake-word window handling
and command recording) is shallowly embedded below: pure functions become
Lean functions, stateful methods become explicit state passing, the
external AI backend / transcriber / embedding model become oracle
parameters, and Python exceptions become `Except` values.
-/

namespace Mars

/-! ## Data model

Messages follow the OpenAI chat format used throughout `core/memory.py`
and `core/ai_engine.py`: a role, an optional content string, an optional
`tool_call_id` (present on tool-result messages) and a list of tool calls
(present on assistant messages that request tool invocations).
-/

/-- A tool call as produced by the AI backend
(`tool_call.id`, `tool_call.function.name`, `tool_call.function.arguments`). -/
structure ToolCall where
  id : String
  name : String
  arguments : String
deriving DecidableEq, Repr

/-- A chat message dict.  Plain memory messages carry only `role` and
`content`; assistant messages with tool calls carry `tool_calls`; tool
result messages carry `tool_call_id`. -/
structure Msg where
  role : String
  content : Option String
  tool_call_id : Option String
  tool_calls : List ToolCall
deriving DecidableEq, Repr

/-- The plain `{"role": role, "content": content}` dict appended by
`ConversationMemory.add_message`. -/
def mkMsg (role content : String) : Msg :=
  { role := role, content := some content, tool_call_id := none, tool_calls := [] }

/-! ## ConversationMemory (`core/memory.py`) -/

/-- State of a `ConversationMemory` object: the `_history` list and the
`max_messages` capacity. -/
structure ConversationMemory where
  history : List Msg
  max_messages : Nat
deriving DecidableEq, Repr

/-- Python slice `l[-k:]` for a non-negative `k`.  For `k = 0` the index
`-0` is `0`, so the slice is the WHOLE list, not the empty list. -/
def pySliceLast {α : Type} (l : List α) (k : Nat) : List α :=
  if k = 0 then l else l.drop (l.length - k)

/-- `ConversationMemory.trim_history`: when the history is longer than
`max_messages`, keep `self._history[-max_messages:]`. -/
def trim_history (m : ConversationMemory) (maxMessages : Nat) : ConversationMemory :=
  if m.history.length > maxMessages then
    { m with history := pySliceLast m.history maxMessages }
  else m

/-- `ConversationMemory.add_message`: append the message, then trim to
`max_messages`. -/
def add_message (m : ConversationMemory) (role content : String) : ConversationMemory :=
  trim_history { m with history := m.history ++ [mkMsg role content] } m.max_messages

/-- Run a whole sequence of `add_message` calls. -/
def add_all (m : ConversationMemory) (msgs : List (String × String)) : ConversationMemory :=
  msgs.foldl (fun acc rc => add_message acc rc.1 rc.2) m

/-! ## SkillRegistry (`core/skill_registry.py`)

A registered skill handler receives keyword arguments and either returns
a string or raises (modelled as `Except String String`, the error side
carrying the exception text).  The registry itself is the name→entry
lookup table; only the handler matters for `execute`.
-/

/-- Keyword arguments passed to a skill handler. -/
abbrev Kwargs := List (String × String)

/-- A skill handler: returns a string or raises an exception. -/
abbrev Handler := Kwargs → Except String String

/-- The registry of skills as a name→handler table. -/
abbrev Skills := List (String × Handler)

/-- The string returned by `SkillRegistry.execute` for an unregistered
name. -/
def unknownSkillMsg (name : String) : String :=
  "Unknown skill: \x27" ++ name ++ "\x27"

/-- The user-facing apology returned by `SkillRegistry.execute` when the
handler raises; it does not include the exception text. -/
def skillErrorMsg (name : String) : String :=
  "I encountered an error while executing \x27" ++ name ++ "\x27, sir."

/-- `SkillRegistry.execute`: look the skill up; unknown names yield the
"Unknown skill" string; a raising handler yields the apology string; a
successful handler yields its result.  No branch re-raises. -/
def execute (skills : Skills) (name : String) (kwargs : Kwargs) : String :=
  match skills.lookup name with
  | none => unknownSkillMsg name
  | some f =>
    match f kwargs with
    | Except.ok result => result
    | Except.error _ => skillErrorMsg name

/-! ## AIEngine (`core/ai_engine.py`)

The OpenAI backend is an oracle mapping the index of the API call
(0 for the first call made by `chat`, 1 for the first follow-up, …) to
either an exception or a response message (`response.choices[0].message`,
holding optional text content and a list of tool calls).  JSON parsing of
tool-call arguments (`json.loads`) is likewise an oracle, returning
either the parsed keyword map or a decode error.

The recursion in `_process_response` has no bound in the source, so the
embedding threads explicit fuel: a `none` result means the loop was still
running after `fuel` follow-up rounds.
-/

/-- The message object of one backend response
(`response.choices[0].message`). -/
structure Response where
  content : Option String
  tool_calls : List ToolCall
deriving DecidableEq, Repr

/-- The AI backend: `client.chat.completions.create`, indexed by how many
calls were made before (an exception is `Except.error`). -/
abbrev Backend := Nat → Except Unit Response

/-- A JSON-argument parse oracle standing for `json.loads`. -/
abbrev ArgParse := String → Except Unit Kwargs

/-- The assistant message appended to the in-flight list for a response
with tool calls (`message.model_dump(exclude_unset=True)`). -/
def assistantMsg (r : Response) : Msg :=
  { role := "assistant", content := r.content, tool_call_id := none,
    tool_calls := r.tool_calls }

/-- The `tool`-role message carrying a tool call result. -/
def toolMsg (callId result : String) : Msg :=
  { role := "tool", content := some result, tool_call_id := some callId,
    tool_calls := [] }

/-- Apology returned by `chat` when the first backend call raises. -/
def firstCallApology : String :=
  "I\x27m sorry, sir — I encountered an error reaching the AI service."

/-- Apology returned by `_process_response` when a follow-up backend call
raises. -/
def followUpApology : String :=
  "I encountered an issue processing the tool result, sir."

/-- `AIEngine._execute_tool`: parse the JSON arguments (empty string or a
decode failure degrade to the empty keyword map) and dispatch to
`SkillRegistry.execute`; without a registry a fixed message results. -/
def execute_tool (registry : Option Skills) (parse : ArgParse)
    (name argumentsJson : String) : String :=
  match registry with
  | none => "No skill registry available to execute \x27" ++ name ++ "\x27."
  | some skills =>
    let kwargs :=
      if argumentsJson = "" then []
      else
        match parse argumentsJson with
        | Except.ok k => k
        | Except.error _ => []
    execute skills name kwargs

/-- The messages appended for one response carrying tool calls: the
assistant message itself, then one `tool` message per tool call in
order. -/
def toolRoundMsgs (registry : Option Skills) (parse : ArgParse) (r : Response) :
    List Msg :=
  assistantMsg r ::
    r.tool_calls.map (fun tc => toolMsg tc.id (execute_tool registry parse tc.name tc.arguments))

/-- `AIEngine._process_response`, with explicit fuel for the unbounded
recursion.  `callIdx` is the index of the next backend call, `trace` the
message lists sent so far (one entry per backend call already made).
Returns the final reply together with the full call trace, or `none`
when the loop is still dispatching tool calls after `fuel` rounds. -/
def process_response (backend : Backend) (registry : Option Skills) (parse : ArgParse)
    (resp : Response) (msgs : List Msg) (callIdx : Nat)
    (trace : List (List Msg)) (fuel : Nat) :
    Option (String × List (List Msg)) :=
  if resp.tool_calls = [] then
    some (resp.content.getD "", trace)
  else
    let msgs2 := msgs ++ toolRoundMsgs registry parse resp
    match backend callIdx with
    | Except.error _ => some (followUpApology, trace ++ [msgs2])
    | Except.ok resp2 =>
      match fuel with
      | 0 => none
      | fuel2 + 1 =>
        process_response backend registry parse resp2 msgs2 (callIdx + 1)
          (trace ++ [msgs2]) fuel2

/-- The message list built by `AIEngine._build_messages`: the system
prompt followed by the (already updated) conversation history. -/
def chatMessages (systemPrompt : String) (mem1 : ConversationMemory) : List Msg :=
  mkMsg "system" systemPrompt :: mem1.history

/-- `AIEngine.chat`: add the user message to memory, build the message
list (system prompt + history), call the backend, process the response,
and store the reply as the assistant turn.  On a first-call backend
error the fixed apology is returned WITHOUT being stored in memory.
The result carries the reply, the trace of message lists sent (one per
backend call) and the final memory state; `none` again means the
tool-dispatch loop outlived the fuel. -/
def chat (backend : Backend) (registry : Option Skills) (parse : ArgParse)
    (systemPrompt : String) (mem : ConversationMemory) (userInput : String)
    (fuel : Nat) :
    Option (String × List (List Msg) × ConversationMemory) :=
  match backend 0 with
  | Except.error _ =>
    some (firstCallApology,
          [chatMessages systemPrompt (add_message mem "user" userInput)],
          add_message mem "user" userInput)
  | Except.ok resp =>
    match process_response backend registry parse resp
        (chatMessages systemPrompt (add_message mem "user" userInput)) 1
        [chatMessages systemPrompt (add_message mem "user" userInput)] fuel with
    | none => none
    | some (reply, trace) =>
      some (reply, trace, add_message (add_message mem "user" userInput) "assistant" reply)

/-! ## SpeakerVerifier (`core/speaker_verify.py`)

Embeddings are real vectors (`List ℝ`).  `np.linalg.norm` is the
Euclidean norm `sqrt (v · v)`; `_cosine_similarity` guards zero norms
before dividing.  The stored profile file is modelled as a NumPy array
with its dimensionality (`ndim`) and flat data; the resemblyzer
embedding step is an oracle that either returns a vector or raises.
-/

/-- Dot product of two vectors, `np.dot` on equal-length 1-D arrays. -/
def dot (a b : List ℝ) : ℝ := (List.zipWith (fun x y => x * y) a b).sum

/-- Euclidean norm, `np.linalg.norm`. -/
noncomputable def npNorm (a : List ℝ) : ℝ := Real.sqrt (dot a a)

/-- `_cosine_similarity`: `0.0` when either norm is zero, otherwise
`dot / (norm_a * norm_b)`. -/
noncomputable def cosine_similarity (a b : List ℝ) : ℝ :=
  if npNorm a = 0 ∨ npNorm b = 0 then 0 else dot a b / (npNorm a * npNorm b)

/-- A stored NumPy array: its number of dimensions and (for the 1-D case
relevant here) its data. -/
structure NpArray where
  ndim : Nat
  data : List ℝ

/-- The `ValueError` message raised by `load_profile` on a non-1-D
stored array. -/
def badProfileError : String := "Expected a 1-D embedding array."

/-- `SpeakerVerifier.load_profile`: `ok none` when the profile file does
not exist (the Python method returns `False`), a raised `ValueError`
when the stored array is not 1-dimensional, and `ok (some data)` when
the profile loads. -/
def load_profile (profileExists : Bool) (stored : NpArray) :
    Except String (Option (List ℝ)) :=
  if profileExists = false then Except.ok none
  else if stored.ndim ≠ 1 then Except.error badProfileError
  else Except.ok (some stored.data)

/-- Body of the `try` block in `SpeakerVerifier.verify`: embed the audio
(an oracle that may raise), compare the cosine similarity against the
threshold; any exception inside the block yields `true` (fail-open). -/
noncomputable def verifyBody (owner : List ℝ) (embedResult : Except Unit (List ℝ))
    (threshold : ℝ) : Bool :=
  match embedResult with
  | Except.error _ => true
  | Except.ok emb => decide (cosine_similarity emb owner ≥ threshold)

/-- `SpeakerVerifier.verify`.  `cached` is `self._owner_embedding`; when
it is `none` the profile is loaded lazily OUTSIDE the `try` block, so a
missing file fails open to `true` while a malformed profile propagates
the `ValueError`. -/
noncomputable def verify (cached : Option (List ℝ)) (profileExists : Bool)
    (stored : NpArray) (embedResult : Except Unit (List ℝ)) (threshold : ℝ) :
    Except String Bool :=
  match cached with
  | some owner => Except.ok (verifyBody owner embedResult threshold)
  | none =>
    match load_profile profileExists stored with
    | Except.error e => Except.error e
    | Except.ok none => Except.ok true
    | Except.ok (some owner) => Except.ok (verifyBody owner embedResult threshold)

/-! ## WakeWordDetector (`core/wake_word.py`)

`_process_window` joins the window frames into one int16 sample buffer,
computes its aggregate RMS and skips transcription entirely on silence.
The Whisper transcription is an oracle that may raise; a raised
exception is caught and treated as no match.  The result below pairs the
match verdict with whether the transcription backend was invoked.
-/

/-- Substring test on character lists (Python `needle in haystack`). -/
def charsContain (needle : List Char) : List Char → Bool
  | [] => needle = []
  | c :: rest => needle.isPrefixOf (c :: rest) || charsContain needle rest

/-- Python `needle in haystack` on strings. -/
def strContains (haystack needle : String) : Bool :=
  charsContain needle.data haystack.data

/-- Aggregate RMS of a window of int16 samples:
`sqrt (mean (samples**2))`. -/
noncomputable def windowRms (samples : List ℤ) : ℝ :=
  Real.sqrt ((samples.map (fun x : ℤ => ((x : ℝ)) ^ 2)).sum / samples.length)

/-- `WakeWordDetector._process_window` on the joined int16 samples of a
window.  First component: whether the wake word was detected.  Second
component: whether the transcription backend was invoked. -/
noncomputable def process_window (samples : List ℤ) (energyThreshold : ℝ)
    (transcribeResult : Except Unit String) (wakeWord : String) : Bool × Bool :=
  if windowRms samples < energyThreshold then (false, false)
  else
    match transcribeResult with
    | Except.error _ => (false, true)
    | Except.ok text => (strContains (text.toLower.trim) wakeWord, true)

/-! ## Listener.record_audio (`core/listener.py`)

The microphone stream is an oracle giving the int16 samples of the
`i`-th chunk.  The loop reads at most `maxChunks` chunks, counts the
current run of below-threshold chunks and breaks once that run reaches
`neededChunks` AND strictly more than `neededChunks` chunks are
captured.
-/

/-- `_compute_rms`: RMS of one chunk, `0.0` on an empty buffer. -/
noncomputable def compute_rms (samples : List ℤ) : ℝ :=
  if samples.length = 0 then 0
  else Real.sqrt ((samples.map (fun x : ℤ => ((x : ℝ)) ^ 2)).sum / samples.length)

/-- The recording loop of `Listener.record_audio`.  `fuel` is the number
of loop iterations left (initially `max_chunks`), `i` the index of the
next chunk to read, `frames` the chunks captured so far and `silent` the
current run of silent chunks. -/
noncomputable def recordGo (stream : Nat → List ℤ) (threshold : ℝ) (neededChunks : Nat) :
    Nat → Nat → List (List ℤ) → Nat → List (List ℤ)
  | 0, _, frames, _ => frames
  | fuel + 1, i, frames, silent =>
    let data := stream i
    let frames2 := frames ++ [data]
    let silent2 := if compute_rms data < threshold then silent + 1 else 0
    if neededChunks ≤ silent2 ∧ neededChunks < frames2.length then frames2
    else recordGo stream threshold neededChunks fuel (i + 1) frames2 silent2

/-- `Listener.record_audio`, returning the list of captured chunks. -/
noncomputable def record_audio (stream : Nat → List ℤ) (threshold : ℝ)
    (neededChunks maxChunks : Nat) : List (List ℤ) :=
  recordGo stream threshold neededChunks maxChunks 0 [] 0

/-- The normalised float waveform returned by `record_audio`
(concatenate the chunks, divide by 32768). -/
noncomputable def record_waveform (stream : Nat → List ℤ) (threshold : ℝ)
    (neededChunks maxChunks : Nat) : List ℝ :=
  (record_audio stream threshold neededChunks maxChunks).flatten.map
    (fun x : ℤ => (x : ℝ) / 32768)

/-- The run of consecutive silent chunks immediately before chunk index
`m` (the value of `silent_chunks` after the first `m` loop
iterations). -/
noncomputable def trailingSilent (stream : Nat → List ℤ) (threshold : ℝ) : Nat → Nat
  | 0 => 0
  | m + 1 =>
    if compute_rms (stream m) < threshold then trailingSilent stream threshold m + 1
    else 0

/-- The silence-stop condition of the source after `n` captured chunks:
the silent run has reached `neededChunks` and STRICTLY more than
`neededChunks` chunks are captured. -/
def silenceStop (stream : Nat → List ℤ) (threshold : ℝ) (neededChunks n : Nat) : Prop :=
  neededChunks ≤ trailingSilent stream threshold n ∧ neededChunks < n

/-- The first `n` chunks of the stream. -/
def prefixChunks (stream : Nat → List ℤ) (n : Nat) : List (List ℤ) :=
  (List.range n).map stream

/-! ## Helper lemmas about the dot product and cosine similarity -/

lemma dot_nil_left (b : List ℝ) : dot [] b = 0 := by
  simp [dot]

lemma dot_nil_right (a : List ℝ) : dot a [] = 0 := by
  simp [dot]

lemma dot_cons (x y : ℝ) (a b : List ℝ) :
    dot (x :: a) (y :: b) = x * y + dot a b := by
  simp [dot]

lemma dot_comm (a b : List ℝ) : dot a b = dot b a := by
  induction a generalizing b with
  | nil => cases b <;> simp [dot]
  | cons x a ih =>
    cases b with
    | nil => simp [dot]
    | cons y b => rw [dot_cons, dot_cons, ih, mul_comm]

lemma dot_self_nonneg (v : List ℝ) : 0 ≤ dot v v := by
  induction v with
  | nil => simp [dot]
  | cons x a ih =>
    rw [dot_cons]
    have := mul_self_nonneg x
    linarith

lemma dot_self_pos (v : List ℝ) (h : ∃ x ∈ v, x ≠ 0) : 0 < dot v v := by
  induction v with
  | nil => simp at h
  | cons x a ih =>
    rw [dot_cons]
    rcases h with ⟨y, hy, hy0⟩
    rcases List.mem_cons.mp hy with rfl | hmem
    · have h1 : 0 < y * y := mul_self_pos.mpr hy0
      have h2 := dot_self_nonneg a
      linarith
    · have h1 := ih ⟨y, hmem, hy0⟩
      have h2 := mul_self_nonneg x
      linarith

lemma dot_map_neg_right (a b : List ℝ) :
    dot a (b.map (fun x => -x)) = -(dot a b) := by
  induction a generalizing b with
  | nil => simp [dot]
  | cons x a ih =>
    cases b with
    | nil => simp [dot]
    | cons y b =>
      simp only [List.map_cons, dot_cons, ih]
      ring

lemma dot_map_neg_self (b : List ℝ) :
    dot (b.map (fun x => -x)) (b.map (fun x => -x)) = dot b b := by
  induction b with
  | nil => simp [dot]
  | cons y b ih =>
    simp only [List.map_cons, dot_cons, ih]
    ring

lemma npNorm_eq_zero_iff (v : List ℝ) : npNorm v = 0 ↔ dot v v = 0 := by
  unfold npNorm
  rw [Real.sqrt_eq_zero']
  constructor
  · intro h
    exact le_antisymm h (dot_self_nonneg v)
  · intro h
    rw [h]

lemma npNorm_sq (v : List ℝ) : npNorm v * npNorm v = dot v v := by
  unfold npNorm
  exact Real.mul_self_sqrt (dot_self_nonneg v)

lemma cosine_self (v : List ℝ) (h : dot v v ≠ 0) : cosine_similarity v v = 1 := by
  have hn : ¬ (npNorm v = 0 ∨ npNorm v = 0) := by
    intro hc
    exact h ((npNorm_eq_zero_iff v).mp (hc.elim id id))
  unfold cosine_similarity
  rw [if_neg hn, npNorm_sq]
  exact div_self h

lemma cosine_neg_self (v : List ℝ) (h : dot v v ≠ 0) :
    cosine_similarity v (v.map (fun x => -x)) = -1 := by
  have hn2 : npNorm (v.map (fun x => -x)) = npNorm v := by
    unfold npNorm
    rw [dot_map_neg_self]
  have hn : ¬ (npNorm v = 0 ∨ npNorm (v.map (fun x => -x)) = 0) := by
    rw [hn2]
    intro hc
    exact h ((npNorm_eq_zero_iff v).mp (hc.elim id id))
  unfold cosine_similarity
  rw [if_neg hn, hn2, dot_map_neg_right, npNorm_sq, neg_div]
  rw [div_self h]

lemma cosine_comm (a b : List ℝ) : cosine_similarity a b = cosine_similarity b a := by
  unfold cosine_similarity
  by_cases h : npNorm a = 0 ∨ npNorm b = 0
  · rw [if_pos h, if_pos h.symm]
  · rw [if_neg h, if_neg (fun hc => h hc.symm), dot_comm, mul_comm]

/-! ## Claim theorems: speaker verification and cosine similarity -/

/-- C7: the cosine-similarity function of `core/speaker_verify.py`
satisfies: for every nonzero vector `v`, `cosineSimilarity(v, v) = 1`
and `cosineSimilarity(v, -v) = -1`; it is symmetric in its arguments;
and whenever either argument has zero norm the result is `0` (the
division is guarded, so no division by zero occurs). -/
theorem C7_cosine_similarity_algebra :
    (∀ v : List ℝ, (∃ x ∈ v, x ≠ 0) →
        cosine_similarity v v = 1 ∧
        cosine_similarity v (v.map (fun x => -x)) = -1) ∧
    (∀ a b : List ℝ, cosine_similarity a b = cosine_similarity b a) ∧
    (∀ a b : List ℝ, npNorm a = 0 ∨ npNorm b = 0 → cosine_similarity a b = 0) := by
  refine ⟨fun v hv => ?_, cosine_comm, fun a b h => ?_⟩
  · have h0 : dot v v ≠ 0 := ne_of_gt (dot_self_pos v hv)
    exact ⟨cosine_self v h0, cosine_neg_self v h0⟩
  · unfold cosine_similarity
    rw [if_pos h]

/-- Witness for C7 at the concrete vectors `[1, 2]` (nonzero) and
`[0, 0]` (zero norm). -/
theorem C7_witness :
    cosine_similarity [1, 2] [1, 2] = 1 ∧
    cosine_similarity [0, 0] [1, 1] = 0 := by
  constructor
  · exact (C7_cosine_similarity_algebra.1 [1, 2] ⟨1, by simp, by norm_num⟩).1
  · refine C7_cosine_similarity_algebra.2.2 [0, 0] [1, 1] (Or.inl ?_)
    rw [npNorm_eq_zero_iff]
    rw [dot_cons, dot_cons, dot_nil_left]
    norm_num

/-- C2: with a well-formed (1-D) stored profile and no cached embedding,
`SpeakerVerifier.verify` returns `true` exactly when the profile file is
missing (fail-open), or the embedding step raises (fail-open), or the
cosine similarity between the computed embedding and the stored owner
profile is at least the threshold (equality accepted, `>=`). -/
theorem C2_verify_fail_open_iff (profileExists : Bool) (stored : NpArray)
    (embedResult : Except Unit (List ℝ)) (t : ℝ) (hshape : stored.ndim = 1) :
    verify none profileExists stored embedResult t = Except.ok true ↔
      (profileExists = false ∨
       (∃ e, embedResult = Except.error e) ∨
       (∃ emb, embedResult = Except.ok emb ∧
          cosine_similarity emb stored.data ≥ t)) := by
  cases profileExists with
  | false => simp [verify, load_profile]
  | true =>
    have hl : load_profile true stored = Except.ok (some stored.data) := by
      unfold load_profile
      rw [if_neg (by simp), if_neg (by simp [hshape])]
    cases embedResult with
    | error e => simp [verify, hl, verifyBody]
    | ok emb => simp [verify, hl, verifyBody]

/-- Witness for C2: an existing 1-D profile `[1, 0]`, an embedding equal
to the profile (similarity `1`) and threshold `3/4` verify as the
owner. -/
theorem C2_witness :
    verify none true ⟨1, [1, 0]⟩ (Except.ok [1, 0]) (3 / 4) = Except.ok true := by
  refine (C2_verify_fail_open_iff true ⟨1, [1, 0]⟩ (Except.ok [1, 0]) (3 / 4) rfl).mpr ?_
  refine Or.inr (Or.inr ⟨[1, 0], rfl, ?_⟩)
  have h : cosine_similarity [(1 : ℝ), 0] [(1 : ℝ), 0] = 1 := by
    refine cosine_self _ ?_
    rw [dot_cons, dot_cons, dot_nil_left]
    norm_num
  show cosine_similarity [(1 : ℝ), 0] (NpArray.data ⟨1, [1, 0]⟩) ≥ 3 / 4
  rw [show NpArray.data ⟨1, [(1 : ℝ), 0]⟩ = [(1 : ℝ), 0] from rfl, h]
  norm_num

/-- C9: a stored profile array that is not 1-dimensional makes
`load_profile` raise a `ValueError`, and because `verify` performs the
lazy load OUTSIDE its fail-open `try` block, the error propagates out of
`verify` as well — it is not converted into a fail-open `true`. -/
theorem C9_malformed_profile_raises (profileExists : Bool) (stored : NpArray)
    (embedResult : Except Unit (List ℝ)) (t : ℝ)
    (hpe : profileExists = true) (hshape : stored.ndim ≠ 1) :
    load_profile profileExists stored = Except.error badProfileError ∧
    verify none profileExists stored embedResult t = Except.error badProfileError := by
  subst hpe
  have hl : load_profile true stored = Except.error badProfileError := by
    unfold load_profile
    rw [if_neg (by simp), if_pos hshape]
  exact ⟨hl, by simp [verify, hl]⟩

/-- Witness for C9 at a concrete 2-D stored array. -/
theorem C9_witness :
    load_profile true ⟨2, []⟩ = Except.error badProfileError ∧
    verify none true ⟨2, []⟩ (Except.ok []) 0 = Except.error badProfileError :=
  C9_malformed_profile_raises true ⟨2, []⟩ (Except.ok []) 0 rfl (by decide)

/-! ## Claim theorems: skill registry and conversation memory -/

/-- C5: `SkillRegistry.execute` is total by construction (its embedding
returns a `String`, mirroring that every Python branch returns rather
than raises).  On an unregistered name the result is the
`"Unknown skill: '<name>'"` string, which names the skill; when the
registered handler raises, the result is the fixed user-facing apology
string, which is built from the skill name only — the theorem holds for
EVERY exception value `e`, so the raw exception never appears in the
returned result. -/
theorem C5_execute_uniform_errors (skills : Skills) (name : String) (kwargs : Kwargs) :
    (skills.lookup name = none →
      execute skills name kwargs = unknownSkillMsg name) ∧
    (∀ f e, skills.lookup name = some f → f kwargs = Except.error e →
      execute skills name kwargs = skillErrorMsg name) := by
  constructor
  · intro h
    simp [execute, h]
  · intro f e hf he
    simp [execute, hf, he]

/-- Witness for C5: a one-skill registry whose handler raises. -/
theorem C5_witness :
    execute [("ping", fun _ => Except.error "boom")] "pong" [] = unknownSkillMsg "pong" ∧
    execute [("ping", fun _ => Except.error "boom")] "ping" [] = skillErrorMsg "ping" := by
  constructor
  · exact (C5_execute_uniform_errors [("ping", fun _ => Except.error "boom")] "pong" []).1 rfl
  · exact (C5_execute_uniform_errors [("ping", fun _ => Except.error "boom")] "ping" []).2
      (fun _ => Except.error "boom") "boom" rfl rfl

/-- C4: the bounded-history claim fails at capacity `max_messages = 0`:
`trim_history`'s own docstring promises the history then contains at
most `max_messages` entries, but the Python slice `self._history[-0:]`
is the WHOLE list, so after one `add_message` on a capacity-0 memory the
history holds 1 > 0 entries.  This theorem evaluates the code at that
failing input. -/
theorem C4_zero_capacity_overflow :
    ¬ ((add_message ⟨[], 0⟩ "user" "hello").history.length ≤
        (⟨[], 0⟩ : ConversationMemory).max_messages) := by
  decide

/-- C6: whenever a (nonempty) window's aggregate RMS is below the energy
threshold, `_process_window` classifies the window as not matched
(`false`) and does NOT invoke the transcription backend — the result is
the same for every transcription oracle and its second component records
that no transcribe call happened.  (The window is required to be
nonempty because NumPy's mean of an empty buffer is NaN, which never
satisfies `rms < threshold`.) -/
theorem C6_silent_window_skips_transcription (samples : List ℤ) (thr : ℝ)
    (transcribeResult : Except Unit String) (wakeWord : String)
    (_hne : samples ≠ []) (hrms : windowRms samples < thr) :
    process_window samples thr transcribeResult wakeWord = (false, false) := by
  unfold process_window
  rw [if_pos hrms]

/-- Witness for C6 at a concrete all-zero window below threshold 500. -/
theorem C6_witness :
    process_window [0, 0] 500 (Except.ok "hey mars") "hey mars" = (false, false) := by
  refine C6_silent_window_skips_transcription [0, 0] 500 (Except.ok "hey mars") "hey mars"
    (by simp) ?_
  have h : windowRms [0, 0] = 0 := by
    unfold windowRms
    norm_num
  rw [h]
  norm_num

/-! ## Helper lemmas about memory trimming and the tool-dispatch loop -/

lemma pySliceLast_subset {α : Type} (l : List α) (k : Nat) : pySliceLast l k ⊆ l := by
  unfold pySliceLast
  split
  · exact fun x hx => hx
  · exact List.drop_subset _ _

lemma add_message_history_subset (m : ConversationMemory) (r c : String) :
    (add_message m r c).history ⊆ m.history ++ [mkMsg r c] := by
  unfold add_message trim_history
  split
  · exact pySliceLast_subset _ _
  · exact fun x hx => hx

lemma process_response_always_tools (backend : Backend) (registry : Option Skills)
    (parse : ArgParse) (hb : ∀ n, ∃ r, backend n = Except.ok r ∧ r.tool_calls ≠ []) :
    ∀ fuel resp msgs callIdx trace, resp.tool_calls ≠ [] →
      process_response backend registry parse resp msgs callIdx trace fuel = none := by
  intro fuel
  induction fuel with
  | zero =>
    intro resp msgs callIdx trace hr
    obtain ⟨r, hbn, _⟩ := hb callIdx
    unfold process_response
    rw [if_neg hr]
    simp only [hbn]
  | succ f ih =>
    intro resp msgs callIdx trace hr
    obtain ⟨r, hbn, hrt⟩ := hb callIdx
    unfold process_response
    rw [if_neg hr]
    simp only [hbn]
    exact ih r _ _ _ hrt

lemma process_response_one_round (backend : Backend) (registry : Option Skills)
    (parse : ArgParse) (resp1 : Response) (finalText : String)
    (msgs : List Msg) (callIdx : Nat) (trace : List (List Msg)) (fuel : Nat)
    (hr1 : resp1.tool_calls ≠ [])
    (h1 : backend callIdx = Except.ok ⟨some finalText, []⟩) :
    process_response backend registry parse resp1 msgs callIdx trace (fuel + 1) =
      some (finalText, trace ++ [msgs ++ toolRoundMsgs registry parse resp1]) := by
  unfold process_response
  rw [if_neg hr1]
  simp only [h1]
  unfold process_response
  simp

lemma process_response_follow_up_error (backend : Backend) (registry : Option Skills)
    (parse : ArgParse) (resp1 : Response)
    (msgs : List Msg) (callIdx : Nat) (trace : List (List Msg)) (fuel : Nat)
    (hr1 : resp1.tool_calls ≠ [])
    (h1 : backend callIdx = Except.error ()) :
    process_response backend registry parse resp1 msgs callIdx trace fuel =
      some (followUpApology, trace ++ [msgs ++ toolRoundMsgs registry parse resp1]) := by
  unfold process_response
  rw [if_neg hr1]
  simp only [h1]

lemma filter_tool_round (skills : Skills) (parse : ArgParse) (resp1 : Response)
    (tc : ToolCall) (hr1 : resp1.tool_calls = [tc])
    (base : List Msg) (hbase : ∀ m ∈ base, m.role ≠ "tool") :
    (base ++ toolRoundMsgs (some skills) parse resp1).filter
        (fun m => m.role == "tool") =
      [toolMsg tc.id (execute_tool (some skills) parse tc.name tc.arguments)] := by
  rw [List.filter_append]
  have hb : base.filter (fun m => m.role == "tool") = [] := by
    rw [List.filter_eq_nil_iff]
    intro m hm
    simpa using hbase m hm
  rw [hb]
  unfold toolRoundMsgs
  rw [hr1]
  simp [assistantMsg, toolMsg]

/-! ## Claim theorems: the AI tool-dispatch loop -/

/-- C1, as stated, is false of the code: the dispatch loop in
`_process_response` recurses with NO depth bound.  With a backend whose
every response contains a tool call, granting the loop fuel for 9
follow-up rounds — more than the claimed maximum of 8 — it is STILL
dispatching (`none`), instead of having forcibly returned partial
text within 8 rounds. -/
theorem C1_counterexample :
    chat (fun _ => Except.ok ⟨some "partial", [⟨"call_1", "noop", ""⟩]⟩)
      (some []) (fun _ => Except.ok []) "sys" ⟨[], 20⟩ "hello" 9 = none := rfl

/-- C1 (amended): the tool-dispatch loop of `AIEngine.chat` has no
round bound at all.  For every backend whose every response contains
tool calls, and for EVERY fuel bound, the loop is still running — it
terminates only when some response carries no tool calls or a backend
call raises. -/
theorem C1_unbounded_tool_loop (backend : Backend) (registry : Option Skills)
    (parse : ArgParse) (systemPrompt userInput : String) (mem : ConversationMemory)
    (hb : ∀ n, ∃ r, backend n = Except.ok r ∧ r.tool_calls ≠ []) :
    ∀ fuel, chat backend registry parse systemPrompt mem userInput fuel = none := by
  intro fuel
  obtain ⟨r, hb0, hrt⟩ := hb 0
  unfold chat
  simp only [hb0]
  rw [process_response_always_tools backend registry parse hb fuel r _ 1 _ hrt]

/-- Witness for C1 (amended) at a concrete always-tool-calling
backend. -/
theorem C1_witness :
    chat (fun _ => Except.ok ⟨some "partial", [⟨"call_1", "noop", ""⟩]⟩)
      (some []) (fun _ => Except.ok []) "sys" ⟨[], 20⟩ "hello" 5 = none :=
  C1_unbounded_tool_loop _ (some []) (fun _ => Except.ok []) "sys" "hello" ⟨[], 20⟩
    (fun _ => ⟨⟨some "partial", [⟨"call_1", "noop", ""⟩]⟩, rfl, by simp⟩) 5

/-- C3: when the backend's first response carries exactly one tool call
and its second response is plain text, `chat` makes exactly two backend
calls (the trace has exactly two message lists); the second call's
message list contains exactly one `tool`-role message, whose
`tool_call_id` is the id of the tool call of the first response and
whose content is the string produced by dispatching that call to
`SkillRegistry.execute`; and `chat` returns the second response's
text. -/
theorem C3_single_tool_round (backend : Backend) (skills : Skills) (parse : ArgParse)
    (systemPrompt userInput : String) (mem : ConversationMemory)
    (resp1 : Response) (tc : ToolCall) (finalText : String) (fuel : Nat)
    (h0 : backend 0 = Except.ok resp1) (hr1 : resp1.tool_calls = [tc])
    (h1 : backend 1 = Except.ok ⟨some finalText, []⟩)
    (hmem : ∀ m ∈ mem.history, m.role ≠ "tool") (hfuel : 1 ≤ fuel) :
    ∃ msgs0 msgs1 : List Msg,
      chat backend (some skills) parse systemPrompt mem userInput fuel =
        some (finalText, [msgs0, msgs1],
          add_message (add_message mem "user" userInput) "assistant" finalText) ∧
      msgs1.filter (fun m => m.role == "tool") =
        [toolMsg tc.id (execute_tool (some skills) parse tc.name tc.arguments)] := by
  obtain ⟨fuel2, rfl⟩ : ∃ f, fuel = f + 1 := ⟨fuel - 1, by omega⟩
  refine ⟨chatMessages systemPrompt (add_message mem "user" userInput),
    chatMessages systemPrompt (add_message mem "user" userInput)
      ++ toolRoundMsgs (some skills) parse resp1, ?_, ?_⟩
  · unfold chat
    simp only [h0]
    rw [process_response_one_round backend (some skills) parse resp1 finalText _ 1 _ fuel2
      (by rw [hr1]; exact List.cons_ne_nil tc []) h1]
    rfl
  · refine filter_tool_round skills parse resp1 tc hr1 _ ?_
    intro m hm
    unfold chatMessages at hm
    rcases List.mem_cons.mp hm with rfl | hm2
    · simp [chatMessages, mkMsg]
    · rcases List.mem_append.mp (add_message_history_subset mem "user" userInput hm2)
        with hin | hin
      · exact hmem m hin
      · rw [List.mem_singleton.mp hin]
        simp [mkMsg]

/-- Witness for C3 at a concrete two-response backend and a one-skill
registry. -/
theorem C3_witness :
    ∃ msgs0 msgs1 : List Msg,
      chat (fun n => if n = 0 then Except.ok ⟨none, [⟨"call_abc", "get_time", ""⟩]⟩
              else Except.ok ⟨some "It is noon, sir.", []⟩)
        (some [("get_time", fun _ => Except.ok "12:00")]) (fun _ => Except.ok [])
        "You are MARS." ⟨[], 20⟩ "What time is it?" 2 =
        some ("It is noon, sir.", [msgs0, msgs1],
          add_message (add_message ⟨[], 20⟩ "user" "What time is it?")
            "assistant" "It is noon, sir.") ∧
      msgs1.filter (fun m => m.role == "tool") =
        [toolMsg "call_abc"
          (execute_tool (some [("get_time", fun _ => Except.ok "12:00")])
            (fun _ => Except.ok []) "get_time" "")] := by
  have h := C3_single_tool_round
    (fun n => if n = 0 then Except.ok ⟨none, [⟨"call_abc", "get_time", ""⟩]⟩
      else Except.ok ⟨some "It is noon, sir.", []⟩)
    [("get_time", fun _ => Except.ok "12:00")] (fun _ => Except.ok [])
    "You are MARS." "What time is it?" ⟨[], 20⟩
    ⟨none, [⟨"call_abc", "get_time", ""⟩]⟩ ⟨"call_abc", "get_time", ""⟩
    "It is noon, sir." 2 rfl rfl rfl (by simp) (by norm_num)
  exact h

/-- C10: the two backend-error paths of `chat` leave memory in different
states.  If the FIRST backend call raises, `chat` returns the fixed
first-call apology and the final memory is exactly the input memory
plus the one user message — the apology is NOT stored as an assistant
turn.  If a FOLLOW-UP call (after tool execution) raises, `chat`
returns the distinct follow-up apology and stores it as the assistant
turn, so memory gains the user message AND one assistant message. -/
theorem C10_error_paths_memory (backend : Backend) (registry : Option Skills)
    (parse : ArgParse) (systemPrompt userInput : String) (mem : ConversationMemory)
    (fuel : Nat) :
    (backend 0 = Except.error () →
      chat backend registry parse systemPrompt mem userInput fuel =
        some (firstCallApology,
              [chatMessages systemPrompt (add_message mem "user" userInput)],
              add_message mem "user" userInput)) ∧
    (∀ resp1, backend 0 = Except.ok resp1 → resp1.tool_calls ≠ [] →
      backend 1 = Except.error () →
      chat backend registry parse systemPrompt mem userInput fuel =
        some (followUpApology,
              [chatMessages systemPrompt (add_message mem "user" userInput),
               chatMessages systemPrompt (add_message mem "user" userInput)
                 ++ toolRoundMsgs registry parse resp1],
              add_message (add_message mem "user" userInput) "assistant"
                followUpApology)) := by
  constructor
  · intro h0
    unfold chat
    simp only [h0]
  · intro resp1 h0 hr1 h1
    unfold chat
    simp only [h0]
    rw [process_response_follow_up_error backend registry parse resp1 _ 1 _ fuel hr1 h1]
    rfl

/-- Witness for C10: one backend failing on the first call, another
failing on the follow-up call after a tool round. -/
theorem C10_witness :
    chat (fun _ => Except.error ()) none (fun _ => Except.ok [])
      "sys" ⟨[], 20⟩ "hello" 3 =
      some (firstCallApology,
            [chatMessages "sys" (add_message ⟨[], 20⟩ "user" "hello")],
            add_message ⟨[], 20⟩ "user" "hello") ∧
    chat (fun n => if n = 0 then Except.ok ⟨none, [⟨"id1", "sk", ""⟩]⟩
            else Except.error ())
      none (fun _ => Except.ok []) "sys" ⟨[], 20⟩ "hello" 3 =
      some (followUpApology,
            [chatMessages "sys" (add_message ⟨[], 20⟩ "user" "hello"),
             chatMessages "sys" (add_message ⟨[], 20⟩ "user" "hello")
               ++ toolRoundMsgs none (fun _ => Except.ok [])
                    ⟨none, [⟨"id1", "sk", ""⟩]⟩],
            add_message (add_message ⟨[], 20⟩ "user" "hello") "assistant"
              followUpApology) := by
  constructor
  · exact (C10_error_paths_memory (fun _ => Except.error ()) none (fun _ => Except.ok [])
      "sys" "hello" ⟨[], 20⟩ 3).1 rfl
  · exact (C10_error_paths_memory
      (fun n => if n = 0 then Except.ok ⟨none, [⟨"id1", "sk", ""⟩]⟩ else Except.error ())
      none (fun _ => Except.ok []) "sys" "hello" ⟨[], 20⟩ 3).2
      ⟨none, [⟨"id1", "sk", ""⟩]⟩ rfl (by simp) rfl

/-! ## Helper lemmas about the recording loop -/

lemma prefixChunks_succ (stream : Nat → List ℤ) (i : Nat) :
    prefixChunks stream (i + 1) = prefixChunks stream i ++ [stream i] := by
  unfold prefixChunks
  rw [List.range_succ]
  simp

lemma prefixChunks_length (stream : Nat → List ℤ) (n : Nat) :
    (prefixChunks stream n).length = n := by
  simp [prefixChunks]

lemma trailingSilent_succ (stream : Nat → List ℤ) (thr : ℝ) (i : Nat) :
    trailingSilent stream thr (i + 1) =
      if compute_rms (stream i) < thr then trailingSilent stream thr i + 1 else 0 := by
  simp only [trailingSilent]

lemma recordGo_spec (stream : Nat → List ℤ) (thr : ℝ) (neededChunks : Nat) :
    ∀ fuel i, ∃ n,
      recordGo stream thr neededChunks fuel i (prefixChunks stream i)
          (trailingSilent stream thr i) = prefixChunks stream n ∧
      i ≤ n ∧ n ≤ i + fuel ∧
      (n = i + fuel ∨ silenceStop stream thr neededChunks n) ∧
      (∀ j, i < j → j < n → ¬ silenceStop stream thr neededChunks j) := by
  intro fuel
  induction fuel with
  | zero =>
    intro i
    exact ⟨i, rfl, le_refl i, by omega, Or.inl (by omega),
      fun j h1 h2 => absurd (h1.trans h2) (lt_irrefl i)⟩
  | succ f ih =>
    intro i
    have hrec : recordGo stream thr neededChunks (f + 1) i (prefixChunks stream i)
        (trailingSilent stream thr i) =
        if neededChunks ≤ trailingSilent stream thr (i + 1) ∧ neededChunks < i + 1 then
          prefixChunks stream (i + 1)
        else
          recordGo stream thr neededChunks f (i + 1) (prefixChunks stream (i + 1))
            (trailingSilent stream thr (i + 1)) := by
      simp only [recordGo]
      rw [← trailingSilent_succ stream thr i, ← prefixChunks_succ stream i,
        prefixChunks_length]
    by_cases hstop : neededChunks ≤ trailingSilent stream thr (i + 1) ∧ neededChunks < i + 1
    · refine ⟨i + 1, ?_, by omega, by omega, Or.inr hstop, ?_⟩
      · rw [hrec, if_pos hstop]
      · intro j h1 h2
        exact absurd (h1.trans h2) (by omega)
    · obtain ⟨n, heq, hlb, hub, hdis, hmin⟩ := ih (i + 1)
      refine ⟨n, ?_, by omega, by omega, ?_, ?_⟩
      · rw [hrec, if_neg hstop]
        exact heq
      · rcases hdis with h | h
        · exact Or.inl (by omega)
        · exact Or.inr h
      · intro j h1 h2
        by_cases hj : j = i + 1
        · subst hj
          exact hstop
        · exact hmin j (by omega) h2

lemma prefixChunks_flatten_length (stream : Nat → List ℤ) (chunkSize : Nat)
    (hlen : ∀ i, (stream i).length = chunkSize) :
    ∀ n, ((prefixChunks stream n).flatten).length = n * chunkSize := by
  intro n
  induction n with
  | zero => simp [prefixChunks]
  | succ k ih =>
    rw [prefixChunks_succ, List.flatten_append, List.length_append, ih]
    simp [hlen k]
    ring

/-! ## Claim theorems: command recording -/

/-- C8, as stated, is false of the code: clause (a) claims the
recording stops once the silent run reaches `silence_duration` worth of
chunks "provided at least that many chunks have been captured in
total", but the code requires STRICTLY MORE than that many chunks
(`len(frames) > silence_chunks_needed`).  Concretely, with
`neededChunks = 1` on an all-silent stream, after the first chunk the
silent run is `1 ≥ 1` and `1 ≥ 1` chunks are captured — clause (a) as
stated predicts the recording stops with 1 chunk — yet the code records
a second chunk before stopping. -/
theorem C8_counterexample :
    1 ≤ trailingSilent (fun _ => [0]) 500 1 ∧
    (record_audio (fun _ => [0]) 500 1 3).length = 2 := by
  have hrms : compute_rms [0] = 0 := by
    unfold compute_rms
    norm_num
  have h05 : (0 : ℝ) < 500 := by norm_num
  constructor
  · simp [trailingSilent, hrms, h05]
  · simp [record_audio, recordGo, hrms, h05]

/-- C8 (amended): `record_audio` returns exactly the first `n` stream
chunks, where `n` is the FIRST index at which either the silent-run
condition holds — the run of below-threshold chunks has reached
`neededChunks` AND strictly more than `neededChunks` chunks have been
captured — or the `max_chunks` bound (`int(max_duration * rate /
chunk_size)` iterations) is exhausted; consequently, when every chunk
holds `chunk_size` samples, the returned waveform never exceeds
`max_duration * rate` samples. -/
theorem C8_recording_stop_characterisation (stream : Nat → List ℤ) (thr : ℝ)
    (neededChunks chunkSize : Nat) (maxDur rate : ℚ)
    (hlen : ∀ i, (stream i).length = chunkSize) (hcs : 0 < chunkSize)
    (hdr : 0 ≤ maxDur * rate) :
    ∃ n,
      record_audio stream thr neededChunks ((⌊maxDur * rate / (chunkSize : ℚ)⌋).toNat) =
        prefixChunks stream n ∧
      n ≤ (⌊maxDur * rate / (chunkSize : ℚ)⌋).toNat ∧
      (n = (⌊maxDur * rate / (chunkSize : ℚ)⌋).toNat ∨
        silenceStop stream thr neededChunks n) ∧
      (∀ j, 0 < j → j < n → ¬ silenceStop stream thr neededChunks j) ∧
      ((record_waveform stream thr neededChunks
          ((⌊maxDur * rate / (chunkSize : ℚ)⌋).toNat)).length : ℚ) ≤ maxDur * rate := by
  obtain ⟨n, heq, _, hub, hdis, hmin⟩ :=
    recordGo_spec stream thr neededChunks ((⌊maxDur * rate / (chunkSize : ℚ)⌋).toNat) 0
  have hra : record_audio stream thr neededChunks
      ((⌊maxDur * rate / (chunkSize : ℚ)⌋).toNat) = prefixChunks stream n := by
    unfold record_audio
    have h0p : prefixChunks stream 0 = [] := rfl
    have h0t : trailingSilent stream thr 0 = 0 := rfl
    rw [← h0p, ← h0t]
    simpa using heq
  have hq0 : (0 : ℚ) ≤ maxDur * rate / (chunkSize : ℚ) := by
    apply div_nonneg hdr
    positivity
  have hfl : ((⌊maxDur * rate / (chunkSize : ℚ)⌋).toNat : ℚ) ≤
      maxDur * rate / (chunkSize : ℚ) := by
    have h1 : ((⌊maxDur * rate / (chunkSize : ℚ)⌋).toNat : ℚ) =
        ((⌊maxDur * rate / (chunkSize : ℚ)⌋ : ℤ) : ℚ) := by
      exact_mod_cast Int.toNat_of_nonneg (Int.floor_nonneg.mpr hq0)
    rw [h1]
    exact Int.floor_le (maxDur * rate / (chunkSize : ℚ))
  refine ⟨n, hra, by simpa using hub, by simpa using hdis, fun j h1 h2 => hmin j h1 h2, ?_⟩
  have hwl : (record_waveform stream thr neededChunks
      ((⌊maxDur * rate / (chunkSize : ℚ)⌋).toNat)).length = n * chunkSize := by
    unfold record_waveform
    rw [List.length_map, hra, prefixChunks_flatten_length stream chunkSize hlen n]
  rw [hwl]
  have hnm : n * chunkSize ≤ (⌊maxDur * rate / (chunkSize : ℚ)⌋).toNat * chunkSize :=
    Nat.mul_le_mul_right chunkSize (by simpa using hub)
  have hcast : ((n * chunkSize : Nat) : ℚ) ≤
      (((⌊maxDur * rate / (chunkSize : ℚ)⌋).toNat * chunkSize : Nat) : ℚ) := by
    exact_mod_cast hnm
  refine hcast.trans ?_
  push_cast
  have hmul := mul_le_mul_of_nonneg_right hfl (by positivity : (0 : ℚ) ≤ (chunkSize : ℚ))
  have hne : (chunkSize : ℚ) ≠ 0 := by
    exact_mod_cast hcs.ne'
  rw [div_mul_cancel₀ _ hne] at hmul
  exact hmul

/-- Witness for C8 (amended): an all-silent stream of 4-sample chunks,
1 second at 8 samples per second, chunk size 4, so the chunk budget is
`⌊8 / 4⌋ = 2`. -/
theorem C8_witness :
    ∃ n,
      record_audio (fun _ => [0, 0, 0, 0]) 500 1
          ((⌊(1 : ℚ) * 8 / ((4 : Nat) : ℚ)⌋).toNat) =
        prefixChunks (fun _ => [0, 0, 0, 0]) n ∧
      n ≤ (⌊(1 : ℚ) * 8 / ((4 : Nat) : ℚ)⌋).toNat := by
  obtain ⟨n, h1, h2, _⟩ :=
    C8_recording_stop_characterisation (fun _ => [0, 0, 0, 0]) 500 1 4 1 8
      (fun _ => rfl) (by norm_num) (by norm_num)
  exact ⟨n, h1, h2⟩

end Mars
